import Mathlib

/-!
# Friend relationships, profile loading and chat contacts

A shallow embedding of the three pages of the application
(`src/pages/Dashboard.js`, `src/pages/UserDashboard.js`, `src/pages/chat.js`)
together with the small part of the hosted document store they rely on.

* A user document is a schema-less record; every field the pages read is
  modelled as optional (`none` is JavaScript `undefined`).
* The `users` collection is a finite map from document id to document,
  modelled as a function `Uid → Option UserDoc`.
* `updateDoc` is the store's field update with the `arrayUnion` and
  `arrayRemove` sentinels.  It fails when the backend refuses the request
  (flag `up = false`: network or permission failure) and when the target
  document does not exist.
* Every `async` function of the pages wraps its body in `try/catch`; the
  embedding keeps the exception channel explicit (`Except String`) for the
  body and shows the handler turning an exception into a console message.
-/

namespace Ins

/-- Identity of a user, which is also the id of its document. -/
abbrev Uid := String

/-- A document of the `users` collection, as returned by `doc.data()`. -/
structure UserDoc where
  uid : Option Uid := none
  displayName : Option String := none
  photoURL : Option String := none
  bio : Option String := none
  friends : Option (List Uid) := none
  friendRequests : Option (List Uid) := none
  theoriesCount : Option Nat := none
  followersCount : Option Nat := none
  followingCount : Option Nat := none
  postsCount : Option Nat := none
deriving DecidableEq, Repr

/-- The `users` collection: document id to document, `none` when absent. -/
abbrev Store := Uid → Option UserDoc

/-- The two array fields that the relationship operations update. -/
inductive Field where
  | friends
  | friendRequests
deriving DecidableEq, Repr

/-- The field sentinels `arrayUnion(v)` and `arrayRemove(v)`. -/
inductive FieldValue where
  | arrayUnion (v : Uid)
  | arrayRemove (v : Uid)
deriving DecidableEq, Repr

/-- One call `updateDoc(doc(db, 'users', target), fields)`. -/
structure Write where
  target : Uid
  fields : List (Field × FieldValue)
deriving DecidableEq, Repr

/-- Store semantics of a sentinel on the current value of a field:
`arrayUnion` appends the element unless it is already present,
`arrayRemove` deletes every occurrence; a missing field counts as empty. -/
def FieldValue.apply (old : Option (List Uid)) : FieldValue → Option (List Uid)
  | .arrayUnion v => some (if v ∈ old.getD [] then old.getD [] else old.getD [] ++ [v])
  | .arrayRemove v => some ((old.getD []).filter (fun x => decide (x ≠ v)))

/-- Update of one field of a document. -/
def UserDoc.setField (d : UserDoc) : Field × FieldValue → UserDoc
  | (.friends, fv) => { d with friends := fv.apply d.friends }
  | (.friendRequests, fv) => { d with friendRequests := fv.apply d.friendRequests }

/-- Update of all the fields named in one `updateDoc` call. -/
def UserDoc.update (d : UserDoc) (fields : List (Field × FieldValue)) : UserDoc :=
  fields.foldl UserDoc.setField d

/-- The store with one document replaced. -/
def Store.put (s : Store) (t : Uid) (d : UserDoc) : Store :=
  fun k => if k = t then some d else s k

/-- The store's `updateDoc`: rejects when the backend is unreachable
(`up = false`) or the document does not exist, otherwise rewrites that one
document. -/
def updateDoc (up : Bool) (s : Store) (w : Write) : Except String Store :=
  if up then
    match s w.target with
    | some d => .ok (s.put w.target (d.update w.fields))
    | none => .error "not-found"
  else .error "unavailable"

/-- The store's `getDoc`: a snapshot of one document (`none` when it does
not exist), or a rejection when the backend is unreachable. -/
def getDoc (up : Bool) (s : Store) (id : Uid) : Except String (Option UserDoc) :=
  if up then .ok (s id) else .error "unavailable"

/-- The `friends` array of a user, empty when the document or field is absent. -/
def friendsOf (s : Store) (u : Uid) : List Uid :=
  match s u with
  | some d => d.friends.getD []
  | none => []

/-- The `friendRequests` array of a user, empty when absent. -/
def friendRequestsOf (s : Store) (u : Uid) : List Uid :=
  match s u with
  | some d => d.friendRequests.getD []
  | none => []

/-- Fire-and-forget refreshes an operation starts after its writes. -/
inductive Refresh where
  | fetchFriendRequests (userId : Uid)
  | fetchFriends (userId : Uid)
deriving DecidableEq, Repr

/-- What a relationship operation leaves behind: the store, the messages it
passed to `console.error`, and the refreshes it started. -/
structure Outcome where
  store : Store
  console : List String
  refresh : List Refresh

/-- The awaited writes of a `try` block, in program order; each write carries
the flag saying whether the backend accepts it.  The block stops at the first
rejected write: the result is the store reached and the exception, if any.
Writes already applied are not undone. -/
def runWrites : List (Bool × Write) → Store → Store × Option String
  | [], s => (s, none)
  | (up, w) :: rest, s =>
    match updateDoc up s w with
    | .ok s1 => runWrites rest s1
    | .error e => (s, some e)

/-- The effect of a write on the store when it is accepted; a write to a
missing document has no effect. -/
def applyWrite (s : Store) (w : Write) : Store :=
  match s w.target with
  | some d => s.put w.target (d.update w.fields)
  | none => s

/-- A merge of two sequences that keeps the order inside each of them. -/
inductive Interleaving {α : Type} : List α → List α → List α → Prop where
  | nil : Interleaving [] [] []
  | left {x : α} {xs ys zs : List α} :
      Interleaving xs ys zs → Interleaving (x :: xs) ys (x :: zs)
  | right {y : α} {xs ys zs : List α} :
      Interleaving xs ys zs → Interleaving xs (y :: ys) (y :: zs)

namespace Dashboard

/-- The writes of `acceptFriendRequest(requestId)`: to the caller's document, then to
the requester's. -/
def acceptWrites (me requestId : Uid) : List Write :=
  [ { target := me
      fields := [(.friends, .arrayUnion requestId), (.friendRequests, .arrayRemove requestId)] },
    { target := requestId, fields := [(.friends, .arrayUnion me)] } ]

/-- The single write of `rejectFriendRequest(requestId)`. -/
def rejectWrites (me requestId : Uid) : List Write :=
  [ { target := me, fields := [(.friendRequests, .arrayRemove requestId)] } ]

/-- The writes of `removeFriend(friendId)`: to the caller's document, then to
the friend's. -/
def removeWrites (me friendId : Uid) : List Write :=
  [ { target := me, fields := [(.friends, .arrayRemove friendId)] },
    { target := friendId, fields := [(.friends, .arrayRemove me)] } ]

/-- Model of `acceptFriendRequest(requestId)`; `up1` and `up2` say whether the backend
accepts the first and the second write. -/
def acceptFriendRequest (up1 up2 : Bool) (currentUser : Option Uid) (requestId : Uid)
    (s : Store) : Outcome :=
  match currentUser with
  | none => { store := s, console := [], refresh := [] }
  | some me =>
    match runWrites ([up1, up2].zip (acceptWrites me requestId)) s with
    | (s1, none) =>
      { store := s1, console := [], refresh := [.fetchFriendRequests me, .fetchFriends me] }
    | (s1, some _) =>
      { store := s1, console := ["Error accepting friend request:"], refresh := [] }

/-- Model of `rejectFriendRequest(requestId)`. -/
def rejectFriendRequest (up : Bool) (currentUser : Option Uid) (requestId : Uid)
    (s : Store) : Outcome :=
  match currentUser with
  | none => { store := s, console := [], refresh := [] }
  | some me =>
    match runWrites ([up].zip (rejectWrites me requestId)) s with
    | (s1, none) => { store := s1, console := [], refresh := [.fetchFriendRequests me] }
    | (s1, some _) =>
      { store := s1, console := ["Error rejecting friend request:"], refresh := [] }

/-- Model of `removeFriend(friendId)`. -/
def removeFriend (up1 up2 : Bool) (currentUser : Option Uid) (friendId : Uid)
    (s : Store) : Outcome :=
  match currentUser with
  | none => { store := s, console := [], refresh := [] }
  | some me =>
    match runWrites ([up1, up2].zip (removeWrites me friendId)) s with
    | (s1, none) => { store := s1, console := [], refresh := [.fetchFriends me] }
    | (s1, some _) => { store := s1, console := ["Error removing friend:"], refresh := [] }

end Dashboard

/-! ## Reads shared by the profile pages -/

/-- A document of the `theories` collection as returned by the ordered query.
The query orders by `createdAt`, so every returned document carries that
field; it is kept as a number of milliseconds. -/
structure TheoryDoc where
  docId : String
  id : Option String := none
  userId : Option Uid := none
  title : Option String := none
  description : Option String := none
  mediaUrl : Option String := none
  createdAt : Nat
deriving DecidableEq, Repr

/-- The view object `{ id: doc.id, ...doc.data() }`: a stored `id` key, when
there is one, overrides the document id. -/
structure Activity where
  id : String
  userId : Option Uid
  title : Option String
  description : Option String
  mediaUrl : Option String
  createdAt : Nat
deriving DecidableEq, Repr

/-- The object spread `{ id: doc.id, ...doc.data() }`. -/
def TheoryDoc.toActivity (d : TheoryDoc) : Activity :=
  { id := d.id.getD d.docId, userId := d.userId, title := d.title,
    description := d.description, mediaUrl := d.mediaUrl, createdAt := d.createdAt }

/-- The store's `getDocs` on the ordered `theories` query: the snapshot the
backend produced, or a rejection. -/
def getDocs (up : Bool) (snapshot : List TheoryDoc) : Except String (List TheoryDoc) :=
  if up then .ok snapshot else .error "unavailable"

/-- The snapshot mapped to view objects and filtered by owner, as both pages do:
`docs.map(...).filter(t => t.userId === userId)`. -/
def userActivities (docs : List TheoryDoc) (userId : Uid) : List Activity :=
  (docs.map TheoryDoc.toActivity).filter (fun theory => decide (theory.userId = some userId))

/-- JavaScript `x || d` on an optional string: `undefined` and the empty
string are both falsy. -/
def orString (x : Option String) (d : String) : String :=
  match x with
  | some v => if v = "" then d else v
  | none => d

/-- JavaScript `x || 0` on an optional counter. -/
def orZero (x : Option Nat) : Nat := x.getD 0

/-- What the profile header shows. -/
structure Header where
  avatarSrc : String
  alt : String
  displayName : Option String
  bio : String
deriving DecidableEq, Repr

/-- The header both profile pages render from `user`:
`user?.photoURL || '/default-avatar.png'`, `user?.displayName || 'User'`,
`user?.displayName` and `user?.bio || 'No bio available'`. -/
def header (user : Option UserDoc) : Header :=
  { avatarSrc := orString (user.bind (fun u => u.photoURL)) "/default-avatar.png"
    alt := orString (user.bind (fun u => u.displayName)) "User"
    displayName := user.bind (fun u => u.displayName)
    bio := orString (user.bind (fun u => u.bio)) "No bio available" }

/-- An entry of the resolved request or friend list. -/
structure NameEntry where
  id : Uid
  displayName : String
deriving DecidableEq, Repr

/-- One lookup of the display-name resolution:
`(await getDoc(...)).data()?.displayName || 'Unknown'`. -/
def resolveName (readUp : Uid → Bool) (s : Store) (id : Uid) : Except String NameEntry :=
  match getDoc (readUp id) s id with
  | .ok userDoc =>
    .ok { id := id, displayName := orString (userDoc.bind (fun d => d.displayName)) "Unknown" }
  | .error e => .error e

/-- The batch `Promise.all(ids.map(resolve))`: results in the order of the ids,
rejected as a whole when one lookup is rejected.  The lookups only read, so
the order in which the store serves them does not show in the result. -/
def resolveNames (readUp : Uid → Bool) (s : Store) : List Uid → Except String (List NameEntry)
  | [] => .ok []
  | id :: rest =>
    match resolveName readUp s id with
    | .error e => .error e
    | .ok entry =>
      match resolveNames readUp s rest with
      | .error e => .error e
      | .ok entries => .ok (entry :: entries)

namespace Dashboard

/-- View state of the dashboard page. -/
structure View where
  loading : Bool := true
  user : Option UserDoc := none
  activities : List Activity := []
  friendRequests : List NameEntry := []
  friends : List NameEntry := []
  showFriends : Bool := false
  console : List String := []
deriving DecidableEq, Repr

/-- The `try` block of `fetchUserData(userId)`. -/
def fetchUserDataTry (up : Bool) (s : Store) (userId : Uid) (v : View) : Except String View :=
  match getDoc up s userId with
  | .error e => .error e
  | .ok (some data) => .ok { v with user := some data }
  | .ok none => .ok v

/-- Model of `fetchUserData(userId)`. -/
def fetchUserData (up : Bool) (s : Store) (userId : Uid) (v : View) : View :=
  match fetchUserDataTry up s userId v with
  | .ok v1 => v1
  | .error _ => { v with console := v.console ++ ["Error fetching user data:"] }

/-- The `try` block of `fetchUserActivities(userId)`. -/
def fetchUserActivitiesTry (up : Bool) (snapshot : List TheoryDoc) (userId : Uid) (v : View) :
    Except String View :=
  match getDocs up snapshot with
  | .error e => .error e
  | .ok docs => .ok { v with activities := userActivities docs userId }

/-- Model of `fetchUserActivities(userId)`. -/
def fetchUserActivities (up : Bool) (snapshot : List TheoryDoc) (userId : Uid) (v : View) :
    View :=
  match fetchUserActivitiesTry up snapshot userId v with
  | .ok v1 => v1
  | .error _ => { v with console := v.console ++ ["Error fetching user activities:"] }

/-- The `try` block of `fetchFriendRequests(userId)`; `up` is the read of the caller's own
document, `readUp` the individual lookups. -/
def fetchFriendRequestsTry (up : Bool) (readUp : Uid → Bool) (s : Store) (userId : Uid)
    (v : View) : Except String View :=
  match getDoc up s userId with
  | .error e => .error e
  | .ok none => .ok v
  | .ok (some data) =>
    match resolveNames readUp s (data.friendRequests.getD []) with
    | .error e => .error e
    | .ok displayNames => .ok { v with friendRequests := displayNames }

/-- Model of `fetchFriendRequests(userId)`. -/
def fetchFriendRequests (up : Bool) (readUp : Uid → Bool) (s : Store) (userId : Uid)
    (v : View) : View :=
  match fetchFriendRequestsTry up readUp s userId v with
  | .ok v1 => v1
  | .error _ => { v with console := v.console ++ ["Error fetching friend requests:"] }

/-- The `try` block of `fetchFriends(userId)`. -/
def fetchFriendsTry (up : Bool) (readUp : Uid → Bool) (s : Store) (userId : Uid)
    (v : View) : Except String View :=
  match getDoc up s userId with
  | .error e => .error e
  | .ok none => .ok v
  | .ok (some data) =>
    match resolveNames readUp s (data.friends.getD []) with
    | .error e => .error e
    | .ok displayNames => .ok { v with friends := displayNames }

/-- Model of `fetchFriends(userId)`. -/
def fetchFriends (up : Bool) (readUp : Uid → Bool) (s : Store) (userId : Uid)
    (v : View) : View :=
  match fetchFriendsTry up readUp s userId v with
  | .ok v1 => v1
  | .error _ => { v with console := v.console ++ ["Error fetching friends:"] }

/-- The profile header of the rendered page, `none` while `loading`. -/
def render (v : View) : Option Header :=
  if v.loading then none else some (header v.user)

end Dashboard

namespace UserDashboard

/-- The counters shown on a public profile. -/
structure UserStats where
  theories : Nat := 0
  followers : Nat := 0
  following : Nat := 0
  posts : Option Nat := none
deriving DecidableEq, Repr

/-- View state of the public profile page. -/
structure View where
  loading : Bool := true
  user : Option UserDoc := none
  userStats : UserStats := {}
  activities : List Activity := []
  friendRequestSent : Bool := false
  console : List String := []
deriving DecidableEq, Repr

/-- The `try` block of `fetchUserData(userId)`. -/
def fetchUserDataTry (up : Bool) (s : Store) (userId : Uid) (v : View) : Except String View :=
  match getDoc up s userId with
  | .error e => .error e
  | .ok (some data) =>
    .ok { v with
          user := some data
          userStats :=
            { theories := orZero data.theoriesCount
              followers := orZero data.followersCount
              following := orZero data.followingCount
              posts := some (orZero data.postsCount) } }
  | .ok none => .ok { v with console := v.console ++ ["User does not exist"] }

/-- Model of `fetchUserData(userId)`: the `try` block, the `catch` handler and the
`finally` clause that clears `loading`. -/
def fetchUserData (up : Bool) (s : Store) (userId : Uid) (v : View) : View :=
  match fetchUserDataTry up s userId v with
  | .ok v1 => { v1 with loading := false }
  | .error _ =>
    { v with console := v.console ++ ["Error fetching user data:"], loading := false }

/-- The `try` block of `fetchUserActivities(userId)`. -/
def fetchUserActivitiesTry (up : Bool) (snapshot : List TheoryDoc) (userId : Uid) (v : View) :
    Except String View :=
  match getDocs up snapshot with
  | .error e => .error e
  | .ok docs => .ok { v with activities := userActivities docs userId }

/-- Model of `fetchUserActivities(userId)`. -/
def fetchUserActivities (up : Bool) (snapshot : List TheoryDoc) (userId : Uid) (v : View) :
    View :=
  match fetchUserActivitiesTry up snapshot userId v with
  | .ok v1 => v1
  | .error _ => { v with console := v.console ++ ["Error fetching user activities:"] }

/-- What `sendFriendRequest` leaves behind. -/
structure Result where
  store : Store
  view : View

/-- The write of `sendFriendRequest`: the target is the `uid` key of the loaded profile. -/
def sendWrites (target me : Uid) : List Write :=
  [ { target := target, fields := [(.friendRequests, .arrayUnion me)] } ]

/-- Model of `sendFriendRequest()`.  The target document is named by `user.uid`, the
`uid` key of the profile data held in view state; building the document
reference raises when that key is missing. -/
def sendFriendRequest (up : Bool) (currentUser : Option Uid) (v : View) (s : Store) : Result :=
  match currentUser, v.user with
  | some me, some user =>
    match user.uid with
    | none =>
      { store := s, view := { v with console := v.console ++ ["Error sending friend request:"] } }
    | some target =>
      match runWrites ([up].zip (sendWrites target me)) s with
      | (s1, none) => { store := s1, view := { v with friendRequestSent := true } }
      | (s1, some _) =>
        { store := s1
          view := { v with console := v.console ++ ["Error sending friend request:"] } }
  | _, _ => { store := s, view := v }

/-- The profile header of the rendered page, `none` while `loading`. -/
def render (v : View) : Option Header :=
  if v.loading then none else some (header v.user)

end UserDashboard

namespace Chat

/-- The object `{ uid: doc.id, ...data }` pushed for one user document: a
stored `uid` key, when there is one, overrides the document id; `data`
holds the other keys. -/
structure UserItem where
  uid : Uid
  data : UserDoc
deriving DecidableEq, Repr

/-- The object spread `{ uid: doc.id, ...data }`. -/
def toItem (doc : Uid × UserDoc) : UserItem :=
  { uid := doc.2.uid.getD doc.1, data := doc.2 }

/-- The callback of the `users` collection subscription: every document but
the caller's own is pushed, in snapshot order. -/
def onUsersSnapshot (me : Uid) (snapshot : List (Uid × UserDoc)) : List UserItem :=
  snapshot.foldl (fun usersArray doc =>
    if doc.1 ≠ me then usersArray ++ [toItem doc] else usersArray) []

/-- The callback of the subscription to the caller's own document:
`setFriends(doc.data().friends || [])`; reading a key of `undefined` raises. -/
def onUserSnapshot (doc : Option UserDoc) : Except String (List Uid) :=
  match doc with
  | none => .error "TypeError: Cannot read properties of undefined (reading friends)"
  | some userData => .ok (userData.friends.getD [])

/-- The displayed contacts: `users.filter(u => friends.includes(u.uid))`. -/
def friendsToShow (users : List UserItem) (friends : List Uid) : List UserItem :=
  users.filter (fun userItem => friends.contains userItem.uid)

end Chat

/-- One fully successful operation of the Relationship Manager: the call
logged no error, and the store moves to the one it left behind. -/
inductive Step : Store → Store → Prop where
  | send (up : Bool) (currentUser : Option Uid) (v : UserDashboard.View) (s : Store) :
      (UserDashboard.sendFriendRequest up currentUser v s).view.console = v.console →
      Step s (UserDashboard.sendFriendRequest up currentUser v s).store
  | accept (up1 up2 : Bool) (currentUser : Option Uid) (requestId : Uid) (s : Store) :
      (Dashboard.acceptFriendRequest up1 up2 currentUser requestId s).console = [] →
      Step s (Dashboard.acceptFriendRequest up1 up2 currentUser requestId s).store
  | reject (up : Bool) (currentUser : Option Uid) (requestId : Uid) (s : Store) :
      (Dashboard.rejectFriendRequest up currentUser requestId s).console = [] →
      Step s (Dashboard.rejectFriendRequest up currentUser requestId s).store
  | remove (up1 up2 : Bool) (currentUser : Option Uid) (friendId : Uid) (s : Store) :
      (Dashboard.removeFriend up1 up2 currentUser friendId s).console = [] →
      Step s (Dashboard.removeFriend up1 up2 currentUser friendId s).store

/-- Friendship is symmetric in a store: whoever lists a friend is listed back. -/
def Symmetric (s : Store) : Prop :=
  ∀ x y : Uid, x ∈ friendsOf s y → y ∈ friendsOf s x

/-- A two-user store used in the examples: `a` has a pending request from `b`. -/
def demoStore : Store := fun k =>
  if k = "a" then some { uid := some "a", displayName := some "Ann", friendRequests := some ["b"] }
  else if k = "b" then some { uid := some "b", displayName := some "Bob" }
  else none

/-- A store in which `a` and `b` are friends and `b` also has a request
pending with `a`. -/
def friendsStore : Store := fun k =>
  if k = "a" then
    some { uid := some "a", friends := some ["b", "c"], friendRequests := some ["b"] }
  else if k = "b" then some { uid := some "b", friends := some ["a"] }
  else none

/-- A store in which `a` and `b` are friends of each other and `c` has a
request pending with `a`. -/
def mutualStore : Store := fun k =>
  if k = "a" then
    some { uid := some "a", friends := some ["b"], friendRequests := some ["c"] }
  else if k = "b" then some { uid := some "b", friends := some ["a"] }
  else if k = "c" then some { uid := some "c" }
  else none

/-- A store in which `b.friendRequests` already lists `a` twice. -/
def dupStore : Store := fun k =>
  if k = "a" then some { uid := some "a" }
  else if k = "b" then some { uid := some "b", friendRequests := some ["a", "a"] }
  else none

/-- A snapshot of the `users` collection in which the document `u3` carries the
`uid` key of another user. -/
def mixedSnapshot : List (Uid × UserDoc) :=
  [("u1", { uid := some "u1", displayName := some "Una" }),
   ("u2", { uid := some "u2", displayName := some "Dos" }),
   ("u3", { uid := some "u2", displayName := some "Tres" })]

/-- A snapshot of the `users` collection whose `uid` keys repeat the ids. -/
def plainSnapshot : List (Uid × UserDoc) :=
  [("u1", { uid := some "u1", displayName := some "Una" }),
   ("u2", { uid := some "u2", displayName := some "Dos" }),
   ("u3", { displayName := some "Tres" })]

/-- A view of the public profile page that already shows a loaded profile. -/
def loadedView : UserDashboard.View :=
  { loading := false
    user := some { uid := some "x", displayName := some "Xi", photoURL := some "/xi.png",
                   bio := some "hello" } }

/-- An ordered snapshot of the `theories` collection, newest first. -/
def demoTheories : List TheoryDoc :=
  [ { docId := "t4", userId := some "a", title := some "four", createdAt := 40 },
    { docId := "t3", userId := some "b", title := some "three", createdAt := 30 },
    { docId := "t2", userId := some "a", title := some "two", createdAt := 20 },
    { docId := "t1", title := some "one", createdAt := 10 } ]

/-- A store in which `a` has requests from `b` (no display name), `c` (an empty
display name), `d` (named) and `e` (no document). -/
def namesStore : Store := fun k =>
  if k = "a" then some { uid := some "a", friendRequests := some ["b", "c", "d", "e"] }
  else if k = "b" then some { uid := some "b" }
  else if k = "c" then some { uid := some "c", displayName := some "" }
  else if k = "d" then some { uid := some "d", displayName := some "Dee" }
  else none

/-- The promise returned by the `async` function `acceptFriendRequest`: `.ok` when it
resolves, `.error` when an exception escapes to the caller.  An exception of
a write is taken by the `catch` handler, which logs it and completes
normally. -/
def Dashboard.acceptFriendRequestAsync (up1 up2 : Bool) (currentUser : Option Uid)
    (requestId : Uid) (s : Store) : Except String Outcome :=
  match currentUser with
  | none => .ok { store := s, console := [], refresh := [] }
  | some me =>
    match runWrites ([up1, up2].zip (Dashboard.acceptWrites me requestId)) s with
    | (s1, none) =>
      .ok { store := s1, console := [],
            refresh := [.fetchFriendRequests me, .fetchFriends me] }
    | (s1, some _) =>
      .ok { store := s1, console := ["Error accepting friend request:"], refresh := [] }

/-- A store in which `a` has a request from itself pending, as left by a
`sendFriendRequest` issued on its own profile. -/
def selfStore : Store := fun k =>
  if k = "a" then some { uid := some "a", friendRequests := some ["a"] }
  else none

/-- The store `mutualStore` after `a` has taken `c` as a friend on its own
side only. -/
def partialStore : Store :=
  mutualStore.put "a" { uid := some "a", friends := some ["b", "c"], friendRequests := some [] }

/-! ## Store lemmas -/

theorem mem_apply_arrayUnion (old : Option (List Uid)) (v x : Uid) :
    x ∈ ((FieldValue.arrayUnion v).apply old).getD [] ↔ x ∈ old.getD [] ∨ x = v := by
  by_cases h : v ∈ old.getD []
  · simp only [FieldValue.apply, h, if_true, Option.getD_some]
    constructor
    · exact Or.inl
    · rintro (h1 | rfl)
      · exact h1
      · exact h
  · simp [FieldValue.apply, h]

theorem mem_apply_arrayRemove (old : Option (List Uid)) (v x : Uid) :
    x ∈ ((FieldValue.arrayRemove v).apply old).getD [] ↔ x ∈ old.getD [] ∧ x ≠ v := by
  simp [FieldValue.apply]

theorem updateDoc_eq_ok {up : Bool} {s s1 : Store} {w : Write}
    (h : updateDoc up s w = .ok s1) :
    up = true ∧ ∃ d, s w.target = some d ∧ s1 = s.put w.target (d.update w.fields) := by
  unfold updateDoc at h
  cases up
  · simp at h
  · cases hd : s w.target with
    | none => simp [hd] at h
    | some d =>
      simp only [hd, if_true] at h
      exact ⟨rfl, d, rfl, (Except.ok.inj h).symm⟩

theorem runWrites_cons_eq (up : Bool) (w : Write) (rest : List (Bool × Write)) (s : Store) :
    runWrites ((up, w) :: rest) s =
      match updateDoc up s w with
      | .ok s1 => runWrites rest s1
      | .error e => (s, some e) := by
  rw [runWrites]

theorem runWrites_cons_ok {up : Bool} {w : Write} {rest : List (Bool × Write)} {s : Store}
    (h : (runWrites ((up, w) :: rest) s).2 = none) :
    up = true ∧ ∃ d, s w.target = some d ∧
      runWrites ((up, w) :: rest) s = runWrites rest (s.put w.target (d.update w.fields)) := by
  rw [runWrites_cons_eq] at h ⊢
  cases hu : updateDoc up s w with
  | error e => simp [hu] at h
  | ok s1 =>
    obtain ⟨hup, d, hd, rfl⟩ := updateDoc_eq_ok hu
    exact ⟨hup, d, hd, rfl⟩

/-- A `try` block of one write that raised nothing applied that write. -/
theorem runWrites_one_ok {up : Bool} {w : Write} {s : Store}
    (h : (runWrites [(up, w)] s).2 = none) :
    ∃ d, s w.target = some d ∧
      (runWrites [(up, w)] s).1 = s.put w.target (d.update w.fields) := by
  obtain ⟨-, d, hd, e⟩ := runWrites_cons_ok h
  exact ⟨d, hd, by rw [e, runWrites]⟩

/-- A `try` block of two writes that raised nothing applied both, in order. -/
theorem runWrites_two_ok {u1 u2 : Bool} {w1 w2 : Write} {s : Store}
    (h : (runWrites [(u1, w1), (u2, w2)] s).2 = none) :
    ∃ d1 d2, s w1.target = some d1 ∧
      (s.put w1.target (d1.update w1.fields)) w2.target = some d2 ∧
      (runWrites [(u1, w1), (u2, w2)] s).1 =
        (s.put w1.target (d1.update w1.fields)).put w2.target (d2.update w2.fields) := by
  obtain ⟨-, d1, hd1, e1⟩ := runWrites_cons_ok h
  rw [e1] at h ⊢
  obtain ⟨d2, hd2, e2⟩ := runWrites_one_ok h
  exact ⟨d1, d2, hd1, hd2, e2⟩

/-- Friends of a user after one document has been replaced. -/
theorem friendsOf_put (s : Store) (t : Uid) (d : UserDoc) (k : Uid) :
    friendsOf (s.put t d) k = if k = t then d.friends.getD [] else friendsOf s k := by
  unfold friendsOf Store.put
  by_cases h : k = t <;> simp [h]

/-- Pending requests of a user after one document has been replaced. -/
theorem friendRequestsOf_put (s : Store) (t : Uid) (d : UserDoc) (k : Uid) :
    friendRequestsOf (s.put t d) k
      = if k = t then d.friendRequests.getD [] else friendRequestsOf s k := by
  unfold friendRequestsOf Store.put
  by_cases h : k = t <;> simp [h]

theorem friendsOf_eq_of_some {s : Store} {k : Uid} {d : UserDoc} (h : s k = some d) :
    friendsOf s k = d.friends.getD [] := by
  simp [friendsOf, h]

theorem friendRequestsOf_eq_of_some {s : Store} {k : Uid} {d : UserDoc} (h : s k = some d) :
    friendRequestsOf s k = d.friendRequests.getD [] := by
  simp [friendRequestsOf, h]

namespace Dashboard

theorem acceptFriendRequest_store (up1 up2 : Bool) (me requestId : Uid) (s : Store) :
    (acceptFriendRequest up1 up2 (some me) requestId s).store
      = (runWrites ([up1, up2].zip (acceptWrites me requestId)) s).1 := by
  simp only [acceptFriendRequest]
  generalize runWrites ([up1, up2].zip (acceptWrites me requestId)) s = r
  rcases r with ⟨s1, _ | e⟩ <;> rfl

theorem acceptFriendRequest_console (up1 up2 : Bool) (me requestId : Uid) (s : Store) :
    (acceptFriendRequest up1 up2 (some me) requestId s).console = [] ↔
      (runWrites ([up1, up2].zip (acceptWrites me requestId)) s).2 = none := by
  simp only [acceptFriendRequest]
  generalize runWrites ([up1, up2].zip (acceptWrites me requestId)) s = r
  rcases r with ⟨s1, _ | e⟩ <;> simp

theorem rejectFriendRequest_store (up : Bool) (me requestId : Uid) (s : Store) :
    (rejectFriendRequest up (some me) requestId s).store
      = (runWrites ([up].zip (rejectWrites me requestId)) s).1 := by
  simp only [rejectFriendRequest]
  generalize runWrites ([up].zip (rejectWrites me requestId)) s = r
  rcases r with ⟨s1, _ | e⟩ <;> rfl

theorem rejectFriendRequest_console (up : Bool) (me requestId : Uid) (s : Store) :
    (rejectFriendRequest up (some me) requestId s).console = [] ↔
      (runWrites ([up].zip (rejectWrites me requestId)) s).2 = none := by
  simp only [rejectFriendRequest]
  generalize runWrites ([up].zip (rejectWrites me requestId)) s = r
  rcases r with ⟨s1, _ | e⟩ <;> simp

theorem removeFriend_store (up1 up2 : Bool) (me friendId : Uid) (s : Store) :
    (removeFriend up1 up2 (some me) friendId s).store
      = (runWrites ([up1, up2].zip (removeWrites me friendId)) s).1 := by
  simp only [removeFriend]
  generalize runWrites ([up1, up2].zip (removeWrites me friendId)) s = r
  rcases r with ⟨s1, _ | e⟩ <;> rfl

theorem removeFriend_console (up1 up2 : Bool) (me friendId : Uid) (s : Store) :
    (removeFriend up1 up2 (some me) friendId s).console = [] ↔
      (runWrites ([up1, up2].zip (removeWrites me friendId)) s).2 = none := by
  simp only [removeFriend]
  generalize runWrites ([up1, up2].zip (removeWrites me friendId)) s = r
  rcases r with ⟨s1, _ | e⟩ <;> simp

/-- Shape of the store after a fully successful `acceptFriendRequest`. -/
theorem acceptFriendRequest_ok {up1 up2 : Bool} {A B : Uid} {s : Store}
    (h : (acceptFriendRequest up1 up2 (some A) B s).console = []) :
    ∃ dA dB, s A = some dA ∧
      (s.put A (dA.update [(.friends, .arrayUnion B), (.friendRequests, .arrayRemove B)])) B
        = some dB ∧
      (acceptFriendRequest up1 up2 (some A) B s).store =
        (s.put A (dA.update [(.friends, .arrayUnion B), (.friendRequests, .arrayRemove B)])).put B
          (dB.update [(.friends, .arrayUnion A)]) := by
  rw [acceptFriendRequest_console] at h
  rw [acceptFriendRequest_store]
  exact runWrites_two_ok h

/-- Shape of the store after a successful `rejectFriendRequest`. -/
theorem rejectFriendRequest_ok {up : Bool} {A B : Uid} {s : Store}
    (h : (rejectFriendRequest up (some A) B s).console = []) :
    ∃ dA, s A = some dA ∧
      (rejectFriendRequest up (some A) B s).store =
        s.put A (dA.update [(.friendRequests, .arrayRemove B)]) := by
  rw [rejectFriendRequest_console] at h
  rw [rejectFriendRequest_store]
  exact runWrites_one_ok h

/-- Shape of the store after a fully successful `removeFriend`. -/
theorem removeFriend_ok {up1 up2 : Bool} {A B : Uid} {s : Store}
    (h : (removeFriend up1 up2 (some A) B s).console = []) :
    ∃ dA dB, s A = some dA ∧
      (s.put A (dA.update [(.friends, .arrayRemove B)])) B = some dB ∧
      (removeFriend up1 up2 (some A) B s).store =
        (s.put A (dA.update [(.friends, .arrayRemove B)])).put B
          (dB.update [(.friends, .arrayRemove A)]) := by
  rw [removeFriend_console] at h
  rw [removeFriend_store]
  exact runWrites_two_ok h

end Dashboard

/-- Membership in any friends list after a fully successful `acceptFriendRequest`:
exactly the two mutual entries are added. -/
theorem mem_friendsOf_accept {up1 up2 : Bool} {A B : Uid} {s : Store}
    (h : (Dashboard.acceptFriendRequest up1 up2 (some A) B s).console = []) (x y : Uid) :
    x ∈ friendsOf (Dashboard.acceptFriendRequest up1 up2 (some A) B s).store y ↔
      x ∈ friendsOf s y ∨ (y = A ∧ x = B) ∨ (y = B ∧ x = A) := by
  obtain ⟨dA, dB, hA, hB, e⟩ := Dashboard.acceptFriendRequest_ok h
  rw [e]
  simp only [friendsOf_put]
  by_cases hAB : B = A
  · subst hAB
    simp only [Store.put, if_true, Option.some.injEq] at hB
    subst hB
    by_cases hy : y = B
    · subst hy
      simp [UserDoc.update, UserDoc.setField, mem_apply_arrayUnion, friendsOf_eq_of_some hA]
    · simp [hy]
  · simp only [Store.put, hAB, if_false] at hB
    by_cases hyB : y = B
    · subst hyB
      simp [UserDoc.update, UserDoc.setField, mem_apply_arrayUnion, friendsOf_eq_of_some hB, hAB]
    · by_cases hyA : y = A
      · subst hyA
        simp [UserDoc.update, UserDoc.setField, mem_apply_arrayUnion, friendsOf_eq_of_some hA,
          hyB]
      · simp [hyA, hyB]

/-- The accepted requester is no longer pending after a fully successful
`acceptFriendRequest`. -/
theorem not_mem_friendRequestsOf_accept {up1 up2 : Bool} {A B : Uid} {s : Store}
    (h : (Dashboard.acceptFriendRequest up1 up2 (some A) B s).console = []) :
    B ∉ friendRequestsOf (Dashboard.acceptFriendRequest up1 up2 (some A) B s).store A := by
  obtain ⟨dA, dB, hA, hB, e⟩ := Dashboard.acceptFriendRequest_ok h
  rw [e]
  simp only [friendRequestsOf_put]
  by_cases hAB : B = A
  · subst hAB
    simp only [Store.put, if_true, Option.some.injEq] at hB
    subst hB
    simp [UserDoc.update, UserDoc.setField, mem_apply_arrayRemove]
  · have hBA : ¬ A = B := fun e => hAB e.symm
    simp [hBA, UserDoc.update, UserDoc.setField, mem_apply_arrayRemove]

/-- Membership in any friends list after a fully successful `removeFriend`:
exactly the two mutual entries are deleted. -/
theorem mem_friendsOf_remove {up1 up2 : Bool} {A B : Uid} {s : Store}
    (h : (Dashboard.removeFriend up1 up2 (some A) B s).console = []) (x y : Uid) :
    x ∈ friendsOf (Dashboard.removeFriend up1 up2 (some A) B s).store y ↔
      x ∈ friendsOf s y ∧ ¬ (y = A ∧ x = B) ∧ ¬ (y = B ∧ x = A) := by
  obtain ⟨dA, dB, hA, hB, e⟩ := Dashboard.removeFriend_ok h
  rw [e]
  simp only [friendsOf_put]
  by_cases hAB : B = A
  · subst hAB
    simp only [Store.put, if_true, Option.some.injEq] at hB
    subst hB
    by_cases hy : y = B
    · subst hy
      simp [UserDoc.update, UserDoc.setField, mem_apply_arrayRemove, friendsOf_eq_of_some hA]
    · simp [hy]
  · simp only [Store.put, hAB, if_false] at hB
    by_cases hyB : y = B
    · subst hyB
      simp [UserDoc.update, UserDoc.setField, mem_apply_arrayRemove, friendsOf_eq_of_some hB,
        hAB]
    · by_cases hyA : y = A
      · subst hyA
        simp [UserDoc.update, UserDoc.setField, mem_apply_arrayRemove, friendsOf_eq_of_some hA,
          hyB]
      · simp [hyA, hyB]

/-- A `rejectFriendRequest` never changes a friends list, whether or not its write
succeeds. -/
theorem friendsOf_reject (up : Bool) (A B : Uid) (s : Store) (y : Uid) :
    friendsOf (Dashboard.rejectFriendRequest up (some A) B s).store y = friendsOf s y := by
  by_cases h : (Dashboard.rejectFriendRequest up (some A) B s).console = []
  · obtain ⟨dA, hA, e⟩ := Dashboard.rejectFriendRequest_ok h
    rw [e, friendsOf_put]
    by_cases hy : y = A
    · subst hy
      simp [UserDoc.update, UserDoc.setField, friendsOf_eq_of_some hA]
    · simp [hy]
  · rw [Dashboard.rejectFriendRequest_console] at h
    rw [Dashboard.rejectFriendRequest_store]
    simp only [Dashboard.rejectWrites, List.zip_cons_cons, List.zip_nil_right] at h ⊢
    rw [runWrites_cons_eq] at h ⊢
    cases hu : updateDoc up s _ with
    | error e => rfl
    | ok s1 => simp [hu, runWrites] at h

/-- A `rejectFriendRequest` leaves every document but the caller's as it was. -/
theorem reject_other_docs (up : Bool) (A B : Uid) (s : Store) (y : Uid) (hy : y ≠ A) :
    (Dashboard.rejectFriendRequest up (some A) B s).store y = s y := by
  by_cases h : (Dashboard.rejectFriendRequest up (some A) B s).console = []
  · obtain ⟨dA, hA, e⟩ := Dashboard.rejectFriendRequest_ok h
    rw [e]
    simp [Store.put, hy]
  · rw [Dashboard.rejectFriendRequest_console] at h
    rw [Dashboard.rejectFriendRequest_store]
    simp only [Dashboard.rejectWrites, List.zip_cons_cons, List.zip_nil_right] at h ⊢
    rw [runWrites_cons_eq] at h ⊢
    cases hu : updateDoc up s _ with
    | error e => rfl
    | ok s1 => simp [hu, runWrites] at h

/-- After a successful `rejectFriendRequest` the requester is no longer pending. -/
theorem not_mem_friendRequestsOf_reject {up : Bool} {A B : Uid} {s : Store}
    (h : (Dashboard.rejectFriendRequest up (some A) B s).console = []) :
    B ∉ friendRequestsOf (Dashboard.rejectFriendRequest up (some A) B s).store A := by
  obtain ⟨dA, hA, e⟩ := Dashboard.rejectFriendRequest_ok h
  rw [e, friendRequestsOf_put]
  simp [UserDoc.update, UserDoc.setField, mem_apply_arrayRemove]

/-! ## Relationship Manager: the claims -/

/-- C1: for every store and all uids `A` (the signed-in caller) and `B`, when
both writes of `acceptFriendRequest(B)` issued by `A` succeed, the resulting store has
`B` in `A.friends`, `A` in `B.friends`, and `B` not in `A.friendRequests`. -/
theorem acceptFriendRequest_establishes (up1 up2 : Bool) (s : Store) (A B : Uid)
    (h : (Dashboard.acceptFriendRequest up1 up2 (some A) B s).console = []) :
    B ∈ friendsOf (Dashboard.acceptFriendRequest up1 up2 (some A) B s).store A ∧
    A ∈ friendsOf (Dashboard.acceptFriendRequest up1 up2 (some A) B s).store B ∧
    B ∉ friendRequestsOf (Dashboard.acceptFriendRequest up1 up2 (some A) B s).store A :=
  ⟨(mem_friendsOf_accept h B A).2 (Or.inr (Or.inl ⟨rfl, rfl⟩)),
   (mem_friendsOf_accept h A B).2 (Or.inr (Or.inr ⟨rfl, rfl⟩)),
   not_mem_friendRequestsOf_accept h⟩

/-- C1 at a concrete store: `a` accepts the pending request of `b`. -/
theorem acceptFriendRequest_establishes_witness :
    (Dashboard.acceptFriendRequest true true (some "a") "b" demoStore).console = [] ∧
    "b" ∈ friendsOf (Dashboard.acceptFriendRequest true true (some "a") "b" demoStore).store "a" ∧
    "a" ∈ friendsOf (Dashboard.acceptFriendRequest true true (some "a") "b" demoStore).store "b" ∧
    "b" ∉ friendRequestsOf
      (Dashboard.acceptFriendRequest true true (some "a") "b" demoStore).store "a" :=
  ⟨by decide, acceptFriendRequest_establishes true true demoStore "a" "b" (by decide)⟩

/-- C2: for every store and all uids `A` (the signed-in caller) and `B`, when
both writes of `removeFriend(B)` issued by `A` succeed, the resulting store has `B`
not in `A.friends` and `A` not in `B.friends`. -/
theorem removeFriend_clears (up1 up2 : Bool) (s : Store) (A B : Uid)
    (h : (Dashboard.removeFriend up1 up2 (some A) B s).console = []) :
    B ∉ friendsOf (Dashboard.removeFriend up1 up2 (some A) B s).store A ∧
    A ∉ friendsOf (Dashboard.removeFriend up1 up2 (some A) B s).store B :=
  ⟨fun hm => ((mem_friendsOf_remove h B A).1 hm).2.1 ⟨rfl, rfl⟩,
   fun hm => ((mem_friendsOf_remove h A B).1 hm).2.2 ⟨rfl, rfl⟩⟩

/-- C2 at a concrete store in which `a` and `b` are friends. -/
theorem removeFriend_clears_witness :
    (Dashboard.removeFriend true true (some "a") "b" friendsStore).console = [] ∧
    "b" ∉ friendsOf (Dashboard.removeFriend true true (some "a") "b" friendsStore).store "a" ∧
    "a" ∉ friendsOf (Dashboard.removeFriend true true (some "a") "b" friendsStore).store "b" :=
  ⟨by decide, removeFriend_clears true true friendsStore "a" "b" (by decide)⟩

/-- C3 as stated fails: when `b` is already a friend of `a` and also has a
pending request, a successful `rejectFriendRequest(b)` by `a` leaves `b` in `a.friends`. -/
theorem rejectFriendRequest_keeps_friend :
    (Dashboard.rejectFriendRequest true (some "a") "b" friendsStore).console = [] ∧
    "b" ∈ friendsOf (Dashboard.rejectFriendRequest true (some "a") "b" friendsStore).store "a" := by
  decide

/-- C3 (amended): after `rejectFriendRequest(B)` issued by `A`, `B` is not in
`A.friendRequests` when the write succeeded; every friends list is what it was
before (so `B` is in `A.friends` only if it already was); and every document
other than that of `A` is unchanged, in particular that of `B` when `B ≠ A` (so `A` is in
`B.friendRequests` or `B.friends` only if it already was). -/
theorem rejectFriendRequest_frame (up : Bool) (s : Store) (A B : Uid) :
    ((Dashboard.rejectFriendRequest up (some A) B s).console = [] →
      B ∉ friendRequestsOf (Dashboard.rejectFriendRequest up (some A) B s).store A) ∧
    (∀ y, friendsOf (Dashboard.rejectFriendRequest up (some A) B s).store y = friendsOf s y) ∧
    (∀ y, y ≠ A → (Dashboard.rejectFriendRequest up (some A) B s).store y = s y) :=
  ⟨not_mem_friendRequestsOf_reject, friendsOf_reject up A B s, reject_other_docs up A B s⟩

/-- C3 (amended) at a concrete store: `a` rejects the pending request of `b`. -/
theorem rejectFriendRequest_frame_witness :
    (Dashboard.rejectFriendRequest true (some "a") "b" demoStore).console = [] ∧
    "b" ∉ friendRequestsOf (Dashboard.rejectFriendRequest true (some "a") "b" demoStore).store "a" ∧
    "b" ≠ "a" ∧
    (Dashboard.rejectFriendRequest true (some "a") "b" demoStore).store "b" = demoStore "b" :=
  ⟨by decide,
   (rejectFriendRequest_frame true demoStore "a" "b").1 (by decide),
   by decide,
   (rejectFriendRequest_frame true demoStore "a" "b").2.2 "b" (by decide)⟩

/-- Shape of the result of a `sendFriendRequest` that logged no error, on a loaded
profile whose `uid` key is `T`. -/
theorem sendFriendRequest_ok {up : Bool} {A T : Uid} {v : UserDashboard.View} {s : Store}
    (hu : v.user.bind (fun d => d.uid) = some T)
    (h : (UserDashboard.sendFriendRequest up (some A) v s).view.console = v.console) :
    ∃ dT, s T = some dT ∧
      (UserDashboard.sendFriendRequest up (some A) v s).store =
        s.put T (dT.update [(.friendRequests, .arrayUnion A)]) ∧
      (UserDashboard.sendFriendRequest up (some A) v s).view =
        { v with friendRequestSent := true } := by
  cases hv : v.user with
  | none => simp [hv] at hu
  | some d =>
    have hd : d.uid = some T := by simpa [hv] using hu
    simp only [UserDashboard.sendFriendRequest, hv, hd, UserDashboard.sendWrites,
      List.zip_cons_cons, List.zip_nil_right] at h ⊢
    generalize hr : runWrites [(up, _)] s = r at h ⊢
    rcases r with ⟨s1, _ | e⟩
    · obtain ⟨dT, hT, e1⟩ := runWrites_one_ok (show (runWrites [(up, _)] s).2 = none by rw [hr])
      rw [hr] at e1
      exact ⟨dT, hT, e1, rfl⟩
    · simp at h

/-- A second `arrayUnion` of the same element changes nothing. -/
theorem update_arrayUnion_idem (d : UserDoc) (A : Uid) :
    (d.update [(.friendRequests, .arrayUnion A)]).update [(.friendRequests, .arrayUnion A)]
      = d.update [(.friendRequests, .arrayUnion A)] := by
  by_cases h : A ∈ d.friendRequests.getD []
  · simp [UserDoc.update, UserDoc.setField, FieldValue.apply, h]
  · simp [UserDoc.update, UserDoc.setField, FieldValue.apply, h]

/-- Occurrences of an element after `arrayUnion`, when it occurred at most once. -/
theorem count_arrayUnion (old : Option (List Uid)) (A : Uid)
    (h : (old.getD []).count A ≤ 1) :
    (((FieldValue.arrayUnion A).apply old).getD []).count A = 1 := by
  by_cases hm : A ∈ old.getD []
  · have : 0 < (old.getD []).count A := List.count_pos_iff.2 hm
    simp only [FieldValue.apply, hm, if_true, Option.getD_some]
    omega
  · have : (old.getD []).count A = 0 := List.count_eq_zero.2 hm
    simp [FieldValue.apply, hm, List.count_append, this]

/-- Replacing a document twice keeps the last replacement. -/
theorem put_put (s : Store) (t : Uid) (d1 d2 : UserDoc) :
    (s.put t d1).put t d2 = s.put t d2 := by
  funext k
  by_cases h : k = t <;> simp [Store.put, h]

/-- C4 as stated fails.  On the profile of a user without a document the call
returns at its guard, so after two calls `a` is not in `b.friendRequests` at
all; and when `b.friendRequests` already lists `a` twice, two successful
calls leave it listed twice, since `arrayUnion` only skips the addition. -/
theorem sendFriendRequest_not_exactly_once :
    (friendRequestsOf
        (UserDashboard.sendFriendRequest true (some "a")
          (UserDashboard.sendFriendRequest true (some "a")
            (UserDashboard.fetchUserData true (fun _ => none) "b" {}) (fun _ => none)).view
          (UserDashboard.sendFriendRequest true (some "a")
            (UserDashboard.fetchUserData true (fun _ => none) "b" {}) (fun _ => none)).store).store
        "b").count "a" = 0 ∧
    (UserDashboard.sendFriendRequest true (some "a")
        (UserDashboard.sendFriendRequest true (some "a")
          (UserDashboard.fetchUserData true dupStore "b" {}) dupStore).view
        (UserDashboard.sendFriendRequest true (some "a")
          (UserDashboard.fetchUserData true dupStore "b" {}) dupStore).store).view.console = [] ∧
    (friendRequestsOf
        (UserDashboard.sendFriendRequest true (some "a")
          (UserDashboard.sendFriendRequest true (some "a")
            (UserDashboard.fetchUserData true dupStore "b" {}) dupStore).view
          (UserDashboard.sendFriendRequest true (some "a")
            (UserDashboard.fetchUserData true dupStore "b" {}) dupStore).store).store
        "b").count "a" = 2 := by
  decide

/-- C4 (amended): on a loaded profile whose `uid` key is `B`, when both
`sendFriendRequest` calls issued by `A` log no error (both writes succeed), the
store after the second call equals the store after the first, and `A` occurs
exactly once in `B.friendRequests` provided it occurred at most once before
the first call. -/
theorem sendFriendRequest_idempotent (up1 up2 : Bool) (s : Store) (A B : Uid) (v : UserDashboard.View)
    (hu : v.user.bind (fun d => d.uid) = some B)
    (h1 : (UserDashboard.sendFriendRequest up1 (some A) v s).view.console = v.console)
    (h2 : (UserDashboard.sendFriendRequest up2 (some A)
            (UserDashboard.sendFriendRequest up1 (some A) v s).view
            (UserDashboard.sendFriendRequest up1 (some A) v s).store).view.console
          = (UserDashboard.sendFriendRequest up1 (some A) v s).view.console) :
    (UserDashboard.sendFriendRequest up2 (some A)
        (UserDashboard.sendFriendRequest up1 (some A) v s).view
        (UserDashboard.sendFriendRequest up1 (some A) v s).store).store
      = (UserDashboard.sendFriendRequest up1 (some A) v s).store ∧
    ((friendRequestsOf s B).count A ≤ 1 →
      (friendRequestsOf (UserDashboard.sendFriendRequest up2 (some A)
        (UserDashboard.sendFriendRequest up1 (some A) v s).view
        (UserDashboard.sendFriendRequest up1 (some A) v s).store).store B).count A = 1) := by
  obtain ⟨dT, hT, e1, ev1⟩ := sendFriendRequest_ok hu h1
  have hu1 : (UserDashboard.sendFriendRequest up1 (some A) v s).view.user.bind
      (fun d => d.uid) = some B := by rw [ev1]; exact hu
  obtain ⟨dT2, hT2, e2, ev2⟩ := sendFriendRequest_ok hu1 h2
  have hd2 : dT2 = dT.update [(.friendRequests, .arrayUnion A)] := by
    rw [e1] at hT2
    simpa [Store.put] using hT2.symm
  have hs : (UserDashboard.sendFriendRequest up2 (some A)
        (UserDashboard.sendFriendRequest up1 (some A) v s).view
        (UserDashboard.sendFriendRequest up1 (some A) v s).store).store
      = (UserDashboard.sendFriendRequest up1 (some A) v s).store := by
    rw [e2, hd2, update_arrayUnion_idem, e1, put_put]
  refine ⟨hs, fun hc => ?_⟩
  rw [hs, e1, friendRequestsOf_put, if_pos rfl]
  rw [friendRequestsOf_eq_of_some hT] at hc
  simpa [UserDoc.update, UserDoc.setField] using count_arrayUnion dT.friendRequests A hc

/-- C4 (amended) at a concrete store: `a` sends twice from the profile of `b`. -/
theorem sendFriendRequest_idempotent_witness :
    (UserDashboard.sendFriendRequest true (some "a")
        (UserDashboard.sendFriendRequest true (some "a")
          (UserDashboard.fetchUserData true demoStore "b" {}) demoStore).view
        (UserDashboard.sendFriendRequest true (some "a")
          (UserDashboard.fetchUserData true demoStore "b" {}) demoStore).store).store
      = (UserDashboard.sendFriendRequest true (some "a")
          (UserDashboard.fetchUserData true demoStore "b" {}) demoStore).store ∧
    (friendRequestsOf (UserDashboard.sendFriendRequest true (some "a")
        (UserDashboard.sendFriendRequest true (some "a")
          (UserDashboard.fetchUserData true demoStore "b" {}) demoStore).view
        (UserDashboard.sendFriendRequest true (some "a")
          (UserDashboard.fetchUserData true demoStore "b" {}) demoStore).store).store
      "b").count "a" = 1 :=
  ⟨(sendFriendRequest_idempotent true true demoStore "a" "b"
      (UserDashboard.fetchUserData true demoStore "b" {})
      (by decide) (by decide) (by decide)).1,
   (sendFriendRequest_idempotent true true demoStore "a" "b"
      (UserDashboard.fetchUserData true demoStore "b" {})
      (by decide) (by decide) (by decide)).2 (by decide)⟩

/-! ## Concurrent removals -/

/-- A `try` block that raised nothing applied all its writes in order. -/
theorem runWrites_ok_eq_foldl (l : List (Bool × Write)) (s : Store)
    (h : (runWrites l s).2 = none) :
    (runWrites l s).1 = (l.map Prod.snd).foldl applyWrite s := by
  induction l generalizing s with
  | nil => simp [runWrites]
  | cons p rest ih =>
    obtain ⟨up, w⟩ := p
    obtain ⟨-, d, hd, e⟩ := runWrites_cons_ok h
    rw [e] at h ⊢
    rw [ih _ h]
    simp [applyWrite, hd]

/-- The write that deletes `y` from the friends of `x`. -/
theorem applyWrite_remove_eq (s : Store) (x y : Uid) :
    applyWrite s { target := x, fields := [(.friends, .arrayRemove y)] } =
      fun k => if k = x then (s x).map (fun d =>
        { d with friends := some ((d.friends.getD []).filter (fun z => decide (z ≠ y))) })
      else s k := by
  funext k
  unfold applyWrite
  cases hx : s x with
  | none =>
    by_cases hk : k = x
    · simp [hk, hx]
    · simp [hk]
  | some d =>
    by_cases hk : k = x
    · simp [hk, Store.put, UserDoc.update, UserDoc.setField, FieldValue.apply]
    · simp [hk, Store.put]

/-- Removal writes to the two documents commute. -/
theorem applyWrite_remove_comm (s : Store) (A B : Uid) :
    applyWrite (applyWrite s { target := B, fields := [(.friends, .arrayRemove A)] })
        { target := A, fields := [(.friends, .arrayRemove B)] }
      = applyWrite (applyWrite s { target := A, fields := [(.friends, .arrayRemove B)] })
        { target := B, fields := [(.friends, .arrayRemove A)] } := by
  simp only [applyWrite_remove_eq]
  funext k
  by_cases hAB : A = B
  · subst hAB
    rfl
  · have hBA : ¬ B = A := fun e => hAB e.symm
    by_cases hkA : k = A
    · subst hkA
      simp [hAB, hBA]
    · by_cases hkB : k = B
      · subst hkB
        simp [hAB, hBA]
      · simp [hkA, hkB]

/-- Repeating a removal write changes nothing. -/
theorem applyWrite_remove_idem (s : Store) (x y : Uid) :
    applyWrite (applyWrite s { target := x, fields := [(.friends, .arrayRemove y)] })
        { target := x, fields := [(.friends, .arrayRemove y)] }
      = applyWrite s { target := x, fields := [(.friends, .arrayRemove y)] } := by
  simp only [applyWrite_remove_eq]
  funext k
  by_cases hk : k = x
  · subst hk
    cases hs : s k with
    | none => simp
    | some d => simp [List.filter_filter]
  · simp [hk]

theorem interleaving_nil_left {α : Type} {ys l : List α} (h : Interleaving [] ys l) : l = ys := by
  generalize hx : ([] : List α) = xs at h
  induction h with
  | nil => rfl
  | left _ _ => cases hx
  | right _ ih => rw [ih hx]

theorem interleaving_nil_right {α : Type} {xs l : List α} (h : Interleaving xs [] l) : l = xs := by
  generalize hy : ([] : List α) = ys at h
  induction h with
  | nil => rfl
  | left _ ih => rw [ih hy]
  | right _ _ => cases hy

theorem interleaving_cons_cons {α : Type} {x y : α} {xs ys l : List α}
    (h : Interleaving (x :: xs) (y :: ys) l) :
    (∃ r, l = x :: r ∧ Interleaving xs (y :: ys) r) ∨
    (∃ r, l = y :: r ∧ Interleaving (x :: xs) ys r) := by
  cases h with
  | left h => exact Or.inl ⟨_, rfl, h⟩
  | right h => exact Or.inr ⟨_, rfl, h⟩

/-- The six merges of two sequences of two steps each. -/
theorem interleaving_two_two {α : Type} {x1 x2 y1 y2 : α} {l : List α}
    (h : Interleaving [x1, x2] [y1, y2] l) :
    l = [x1, x2, y1, y2] ∨ l = [x1, y1, x2, y2] ∨ l = [x1, y1, y2, x2] ∨
    l = [y1, x1, x2, y2] ∨ l = [y1, x1, y2, x2] ∨ l = [y1, y2, x1, x2] := by
  rcases interleaving_cons_cons h with ⟨r1, rfl, h1⟩ | ⟨r1, rfl, h1⟩
  · rcases interleaving_cons_cons h1 with ⟨r2, rfl, h2⟩ | ⟨r2, rfl, h2⟩
    · rw [interleaving_nil_left h2]; simp
    · rcases interleaving_cons_cons h2 with ⟨r3, rfl, h3⟩ | ⟨r3, rfl, h3⟩
      · rw [interleaving_nil_left h3]; simp
      · rw [interleaving_nil_right h3]; simp
  · rcases interleaving_cons_cons h1 with ⟨r2, rfl, h2⟩ | ⟨r2, rfl, h2⟩
    · rcases interleaving_cons_cons h2 with ⟨r3, rfl, h3⟩ | ⟨r3, rfl, h3⟩
      · rw [interleaving_nil_left h3]; simp
      · rw [interleaving_nil_right h3]; simp
    · rw [interleaving_nil_right h2]; simp

/-- Every merge of the writes of `A.removeFriend(B)` and `B.removeFriend(A)` that raises
nothing ends in the store reached by the two distinct writes. -/
theorem removeFriend_merge_store {a1 a2 b1 b2 : Bool} {s : Store} {A B : Uid}
    {l : List (Bool × Write)}
    (hl : Interleaving ([a1, a2].zip (Dashboard.removeWrites A B))
      ([b1, b2].zip (Dashboard.removeWrites B A)) l)
    (h : (runWrites l s).2 = none) :
    (runWrites l s).1 =
      applyWrite (applyWrite s { target := A, fields := [(.friends, .arrayRemove B)] })
        { target := B, fields := [(.friends, .arrayRemove A)] } := by
  rw [runWrites_ok_eq_foldl l s h]
  simp only [Dashboard.removeWrites, List.zip_cons_cons, List.zip_nil_right] at hl
  rcases interleaving_two_two hl with e | e | e | e | e | e <;> subst e <;>
    simp only [List.map, List.foldl, applyWrite_remove_comm, applyWrite_remove_idem]

/-- Deleting an element never adds a friend. -/
theorem mem_friendsOf_applyWrite_remove {s : Store} {t v x k : Uid}
    (h : x ∈ friendsOf (applyWrite s { target := t, fields := [(.friends, .arrayRemove v)] }) k) :
    x ∈ friendsOf s k := by
  rw [applyWrite_remove_eq] at h
  unfold friendsOf at h ⊢
  by_cases hk : k = t
  · subst hk
    cases hs : s k with
    | none => simp [hs] at h
    | some d =>
      simp only [hs, if_true, Option.map_some', Option.getD_some] at h
      exact (List.mem_filter.1 h).1
  · simpa [hk] using h

/-- The deleted element is gone from the target. -/
theorem not_mem_friendsOf_applyWrite_remove (s : Store) (t v : Uid) :
    v ∉ friendsOf (applyWrite s { target := t, fields := [(.friends, .arrayRemove v)] }) t := by
  rw [applyWrite_remove_eq]
  unfold friendsOf
  cases hs : s t with
  | none => simp [hs]
  | some d => simp [hs]

/-- C6: if `A` issues `removeFriend(B)` and `B` issues `removeFriend(A)` and all four writes
succeed, then for every interleaving of the four writes that keeps the two
writes of each call in order the end state has `B` not in `A.friends` and `A`
not in `B.friends`, and every such interleaving ends in the same store. -/
theorem removeFriend_concurrent (a1 a2 b1 b2 : Bool) (s : Store) (A B : Uid)
    (l l2 : List (Bool × Write))
    (hl : Interleaving ([a1, a2].zip (Dashboard.removeWrites A B))
      ([b1, b2].zip (Dashboard.removeWrites B A)) l)
    (hl2 : Interleaving ([a1, a2].zip (Dashboard.removeWrites A B))
      ([b1, b2].zip (Dashboard.removeWrites B A)) l2)
    (h : (runWrites l s).2 = none) (h2 : (runWrites l2 s).2 = none) :
    B ∉ friendsOf (runWrites l s).1 A ∧ A ∉ friendsOf (runWrites l s).1 B ∧
    (runWrites l s).1 = (runWrites l2 s).1 := by
  rw [removeFriend_merge_store hl h, removeFriend_merge_store hl2 h2]
  refine ⟨fun hm => ?_, not_mem_friendsOf_applyWrite_remove _ B A, rfl⟩
  exact not_mem_friendsOf_applyWrite_remove s A B (mem_friendsOf_applyWrite_remove hm)

/-- C6 at a concrete store: the call of `a` running first, and the two calls
alternating. -/
theorem removeFriend_concurrent_witness :
    (runWrites [(true, ⟨"a", [(.friends, .arrayRemove "b")]⟩),
        (true, ⟨"b", [(.friends, .arrayRemove "a")]⟩),
        (true, ⟨"b", [(.friends, .arrayRemove "a")]⟩),
        (true, ⟨"a", [(.friends, .arrayRemove "b")]⟩)] friendsStore).2 = none ∧
    "b" ∉ friendsOf (runWrites [(true, ⟨"a", [(.friends, .arrayRemove "b")]⟩),
        (true, ⟨"b", [(.friends, .arrayRemove "a")]⟩),
        (true, ⟨"b", [(.friends, .arrayRemove "a")]⟩),
        (true, ⟨"a", [(.friends, .arrayRemove "b")]⟩)] friendsStore).1 "a" ∧
    "a" ∉ friendsOf (runWrites [(true, ⟨"a", [(.friends, .arrayRemove "b")]⟩),
        (true, ⟨"b", [(.friends, .arrayRemove "a")]⟩),
        (true, ⟨"b", [(.friends, .arrayRemove "a")]⟩),
        (true, ⟨"a", [(.friends, .arrayRemove "b")]⟩)] friendsStore).1 "b" ∧
    (runWrites [(true, ⟨"a", [(.friends, .arrayRemove "b")]⟩),
        (true, ⟨"b", [(.friends, .arrayRemove "a")]⟩),
        (true, ⟨"b", [(.friends, .arrayRemove "a")]⟩),
        (true, ⟨"a", [(.friends, .arrayRemove "b")]⟩)] friendsStore).1 =
      (runWrites [(true, ⟨"a", [(.friends, .arrayRemove "b")]⟩),
        (true, ⟨"b", [(.friends, .arrayRemove "a")]⟩),
        (true, ⟨"a", [(.friends, .arrayRemove "b")]⟩),
        (true, ⟨"b", [(.friends, .arrayRemove "a")]⟩)] friendsStore).1 :=
  ⟨by decide,
   removeFriend_concurrent true true true true friendsStore "a" "b" _ _
    (.left (.left (.right (.right .nil)))) (.left (.right (.right (.left .nil))))
    (by decide) (by decide)⟩

/-! ## Symmetry of friendship -/

/-- A `try` block whose single write only touches `friendRequests` leaves every
friends list as it was, whether or not the write is accepted. -/
theorem friendsOf_runWrites_requests (up : Bool) (t : Uid) (fv : FieldValue) (s : Store)
    (y : Uid) :
    friendsOf (runWrites [(up, { target := t, fields := [(.friendRequests, fv)] })] s).1 y
      = friendsOf s y := by
  rw [runWrites_cons_eq]
  cases hu : updateDoc up s { target := t, fields := [(.friendRequests, fv)] } with
  | error e => rfl
  | ok s1 =>
    obtain ⟨-, d, hd, rfl⟩ := updateDoc_eq_ok hu
    simp only [runWrites, friendsOf_put]
    by_cases hy : y = t
    · subst hy
      simp [UserDoc.update, UserDoc.setField, friendsOf_eq_of_some hd]
    · simp [hy]

/-- A `sendFriendRequest` never changes a friends list. -/
theorem friendsOf_send (up : Bool) (currentUser : Option Uid) (v : UserDashboard.View)
    (s : Store) (y : Uid) :
    friendsOf (UserDashboard.sendFriendRequest up currentUser v s).store y = friendsOf s y := by
  unfold UserDashboard.sendFriendRequest
  cases currentUser with
  | none => rfl
  | some me =>
    cases hv : v.user with
    | none => rfl
    | some user =>
      cases hd : user.uid with
      | none => simp [hd]
      | some target =>
        have key := friendsOf_runWrites_requests up target (.arrayUnion me) s y
        simp only [hd, UserDashboard.sendWrites, List.zip_cons_cons, List.zip_nil_right]
        generalize runWrites [(up, _)] s = r at key ⊢
        rcases r with ⟨s1, _ | e⟩ <;> exact key

/-- Friendship is symmetric in `mutualStore`. -/
theorem mutualStore_symmetric : Symmetric mutualStore := by
  intro x y hx
  by_cases h1 : y = "a"
  · subst h1
    have hx2 : x = "b" := by simpa [friendsOf, mutualStore] using hx
    subst hx2
    decide
  · by_cases h2 : y = "b"
    · subst h2
      have hx2 : x = "a" := by simpa [friendsOf, mutualStore] using hx
      subst hx2
      decide
    · by_cases h3 : y = "c"
      · subst h3
        simp [friendsOf, mutualStore] at hx
      · simp [friendsOf, mutualStore, h1, h2, h3] at hx

/-- C7: symmetry of friendship is an invariant of the Relationship Manager:
when every listed friend lists back, the same holds after any fully successful
`sendFriendRequest`, `acceptFriendRequest`, `rejectFriendRequest` or `removeFriend`. -/
theorem symmetric_preserved (s s2 : Store) (hs : Symmetric s) (hstep : Step s s2) :
    Symmetric s2 := by
  cases hstep with
  | send up currentUser v _ h =>
    intro x y hx
    rw [friendsOf_send] at hx ⊢
    exact hs x y hx
  | accept up1 up2 currentUser requestId _ h =>
    cases currentUser with
    | none => exact hs
    | some A =>
      intro x y hx
      rw [mem_friendsOf_accept h] at hx ⊢
      rcases hx with hx | ⟨rfl, rfl⟩ | ⟨rfl, rfl⟩
      · exact Or.inl (hs x y hx)
      · exact Or.inr (Or.inr ⟨rfl, rfl⟩)
      · exact Or.inr (Or.inl ⟨rfl, rfl⟩)
  | reject up currentUser requestId _ h =>
    cases currentUser with
    | none => exact hs
    | some A =>
      intro x y hx
      rw [friendsOf_reject] at hx ⊢
      exact hs x y hx
  | remove up1 up2 currentUser friendId _ h =>
    cases currentUser with
    | none => exact hs
    | some A =>
      intro x y hx
      rw [mem_friendsOf_remove h] at hx ⊢
      obtain ⟨hx, h1, h2⟩ := hx
      exact ⟨hs x y hx, fun ⟨e1, e2⟩ => h2 ⟨e2, e1⟩, fun ⟨e1, e2⟩ => h1 ⟨e2, e1⟩⟩

/-- C7 at a concrete step: in a store where `a` and `b` are friends, `a`
accepts the request of `c`. -/
theorem symmetric_preserved_witness :
    Symmetric mutualStore ∧
    Step mutualStore (Dashboard.acceptFriendRequest true true (some "a") "c" mutualStore).store ∧
    Symmetric (Dashboard.acceptFriendRequest true true (some "a") "c" mutualStore).store :=
  ⟨mutualStore_symmetric,
   Step.accept true true (some "a") "c" mutualStore (by decide),
   symmetric_preserved _ _ mutualStore_symmetric
     (Step.accept true true (some "a") "c" mutualStore (by decide))⟩

/-! ## Contact List Builder -/

theorem onUsersSnapshot_foldl (me : Uid) (snapshot : List (Uid × UserDoc))
    (acc : List Chat.UserItem) :
    snapshot.foldl (fun usersArray doc =>
        if doc.1 ≠ me then usersArray ++ [Chat.toItem doc] else usersArray) acc
      = acc ++ (snapshot.filter (fun doc => decide (doc.1 ≠ me))).map Chat.toItem := by
  induction snapshot generalizing acc with
  | nil => simp
  | cons doc rest ih =>
    rw [List.foldl_cons, ih]
    by_cases h : doc.1 = me
    · simp [h]
    · simp [h]

/-- The materialised user list is the snapshot without the caller's own
document, in snapshot order. -/
theorem onUsersSnapshot_eq (me : Uid) (snapshot : List (Uid × UserDoc)) :
    Chat.onUsersSnapshot me snapshot
      = (snapshot.filter (fun doc => decide (doc.1 ≠ me))).map Chat.toItem := by
  unfold Chat.onUsersSnapshot
  rw [onUsersSnapshot_foldl]
  simp

/-- C5 as stated fails: with caller `u1` and `friends = [u2]`, the document
with id `u3` is displayed although `u3` is not a friend, because its stored
`uid` key is `u2`. -/
theorem friendsToShow_follows_uid_key :
    Chat.friendsToShow (Chat.onUsersSnapshot "u1" mixedSnapshot) ["u2"]
      = [Chat.toItem ("u2", { uid := some "u2", displayName := some "Dos" }),
         Chat.toItem ("u3", { uid := some "u2", displayName := some "Tres" })] ∧
    "u3" ∉ ["u2"] := by
  decide

/-- C5 (amended): the displayed contacts are, in snapshot order, the documents
whose id differs from the caller's uid and whose `uid` key (the document id
when there is no such key) is in the friends list.  When every `uid` key is
absent or equal to the document id, these are exactly the documents whose id
is in the friends list and differs from the caller's uid, and then no
displayed contact has the caller's uid and every one is a friend. -/
theorem friendsToShow_spec (me : Uid) (snapshot : List (Uid × UserDoc)) (friends : List Uid) :
    Chat.friendsToShow (Chat.onUsersSnapshot me snapshot) friends
      = (snapshot.filter (fun doc =>
          decide (doc.1 ≠ me) && decide (doc.2.uid.getD doc.1 ∈ friends))).map Chat.toItem ∧
    ((∀ doc ∈ snapshot, doc.2.uid = none ∨ doc.2.uid = some doc.1) →
      Chat.friendsToShow (Chat.onUsersSnapshot me snapshot) friends
        = (snapshot.filter (fun doc =>
            decide (doc.1 ≠ me) && decide (doc.1 ∈ friends))).map Chat.toItem ∧
      ∀ item ∈ Chat.friendsToShow (Chat.onUsersSnapshot me snapshot) friends,
        item.uid ≠ me ∧ item.uid ∈ friends) := by
  have key : Chat.friendsToShow (Chat.onUsersSnapshot me snapshot) friends
      = (snapshot.filter (fun doc =>
          decide (doc.1 ≠ me) && decide (doc.2.uid.getD doc.1 ∈ friends))).map Chat.toItem := by
    rw [onUsersSnapshot_eq]
    unfold Chat.friendsToShow
    rw [List.filter_map, List.filter_filter]
    congr 1
    apply List.filter_congr
    intro doc _
    simp [Chat.toItem, Bool.and_comm]
  refine ⟨key, fun hwf => ?_⟩
  have huid : ∀ doc ∈ snapshot, doc.2.uid.getD doc.1 = doc.1 := by
    intro doc hd
    rcases hwf doc hd with h | h <;> simp [h]
  have key2 : Chat.friendsToShow (Chat.onUsersSnapshot me snapshot) friends
      = (snapshot.filter (fun doc =>
          decide (doc.1 ≠ me) && decide (doc.1 ∈ friends))).map Chat.toItem := by
    rw [key]
    congr 1
    apply List.filter_congr
    intro doc hd
    rw [huid doc hd]
  refine ⟨key2, fun item hi => ?_⟩
  rw [key2] at hi
  obtain ⟨doc, hdoc, rfl⟩ := List.mem_map.1 hi
  obtain ⟨hd, hp⟩ := List.mem_filter.1 hdoc
  simp only [Bool.and_eq_true, decide_eq_true_eq] at hp
  simp only [Chat.toItem, huid doc hd]
  exact hp

/-- C5 (amended) on the scenario of the specification: all users `u1, u2, u3`,
caller `u1` listing itself and `u2` as friends; only `u2` is displayed. -/
theorem friendsToShow_spec_witness :
    (∀ doc ∈ plainSnapshot, doc.2.uid = none ∨ doc.2.uid = some doc.1) ∧
    Chat.friendsToShow (Chat.onUsersSnapshot "u1" plainSnapshot) ["u1", "u2"]
      = (plainSnapshot.filter (fun doc =>
          decide (doc.1 ≠ "u1") && decide (doc.1 ∈ ["u1", "u2"]))).map Chat.toItem ∧
    ∀ item ∈ Chat.friendsToShow (Chat.onUsersSnapshot "u1" plainSnapshot) ["u1", "u2"],
      item.uid ≠ "u1" ∧ item.uid ∈ ["u1", "u2"] :=
  ⟨by decide, (friendsToShow_spec "u1" plainSnapshot ["u1", "u2"]).2 (by decide)⟩

/-! ## Profile Loader -/

/-- C8 as stated fails: when the page already holds a loaded profile, an absent
document leaves that profile in view state, and the page keeps rendering its
avatar and bio. -/
theorem fetchUserData_absent_keeps_user :
    (UserDashboard.fetchUserData true (fun _ => none) "z" loadedView).user = loadedView.user ∧
    (UserDashboard.fetchUserData true (fun _ => none) "z" loadedView).user ≠ none ∧
    UserDashboard.render (UserDashboard.fetchUserData true (fun _ => none) "z" loadedView)
      = some { avatarSrc := "/xi.png", alt := "Xi", displayName := some "Xi", bio := "hello" } := by
  decide

/-- C8 (amended): when the store returns absent for the requested id, the `try`
block of `fetchUserData` raises nothing and `user` is left as it was, on both profile
pages; when `user` was null before (as on first load) it is still null, and
the rendered page shows the default avatar and the text `No bio available`. -/
theorem fetchUserData_absent (s : Store) (userId : Uid) (v : UserDashboard.View)
    (w : Dashboard.View) (habs : s userId = none) :
    (UserDashboard.fetchUserDataTry true s userId v
        = .ok { v with console := v.console ++ ["User does not exist"] } ∧
      (UserDashboard.fetchUserData true s userId v).user = v.user ∧
      (v.user = none →
        UserDashboard.render (UserDashboard.fetchUserData true s userId v)
          = some { avatarSrc := "/default-avatar.png", alt := "User", displayName := none,
                   bio := "No bio available" })) ∧
    (Dashboard.fetchUserDataTry true s userId w = .ok w ∧
      Dashboard.fetchUserData true s userId w = w ∧
      (w.user = none → w.loading = false →
        Dashboard.render (Dashboard.fetchUserData true s userId w)
          = some { avatarSrc := "/default-avatar.png", alt := "User", displayName := none,
                   bio := "No bio available" })) := by
  have e1 : UserDashboard.fetchUserDataTry true s userId v
      = .ok { v with console := v.console ++ ["User does not exist"] } := by
    simp [UserDashboard.fetchUserDataTry, getDoc, habs]
  have e2 : Dashboard.fetchUserDataTry true s userId w = .ok w := by
    simp [Dashboard.fetchUserDataTry, getDoc, habs]
  refine ⟨⟨e1, ?_, ?_⟩, e2, ?_, ?_⟩
  · simp [UserDashboard.fetchUserData, e1]
  · intro hv
    simp [UserDashboard.fetchUserData, e1, UserDashboard.render, hv, header, orString]
  · simp [Dashboard.fetchUserData, e2]
  · intro hw hl
    simp [Dashboard.fetchUserData, e2, Dashboard.render, hw, hl, header, orString]

/-- C8 (amended) on first load of the profile of a user without a document. -/
theorem fetchUserData_absent_witness :
    UserDashboard.render (UserDashboard.fetchUserData true demoStore "nobody" {})
      = some { avatarSrc := "/default-avatar.png", alt := "User", displayName := none,
               bio := "No bio available" } ∧
    Dashboard.render
        (Dashboard.fetchUserData true demoStore "nobody" { loading := false })
      = some { avatarSrc := "/default-avatar.png", alt := "User", displayName := none,
               bio := "No bio available" } :=
  ⟨(fetchUserData_absent demoStore "nobody" {} { loading := false } (by decide)).1.2.2 rfl,
   (fetchUserData_absent demoStore "nobody" {} { loading := false } (by decide)).2.2.2 rfl rfl⟩

theorem userActivities_eq (docs : List TheoryDoc) (userId : Uid) :
    userActivities docs userId
      = (docs.filter (fun d => decide (d.userId = some userId))).map TheoryDoc.toActivity := by
  unfold userActivities
  rw [List.filter_map]
  rfl

/-- C9: for every user id and every snapshot of the activity collection that the
store returns ordered by `createdAt` descending, `fetchUserActivities` (on both pages)
sets `activities` to the activities whose `userId` equals the given id, each
once and in the order of the store, every one carrying the id, texts and
`createdAt` of its own document; the result holds no activity of another
user, its creation times are those of the selected documents, and it is
ordered by creation time descending. -/
theorem fetchUserActivities_spec (docs : List TheoryDoc) (userId : Uid)
    (v : UserDashboard.View) (w : Dashboard.View)
    (hsorted : docs.Pairwise (fun d1 d2 => d2.createdAt ≤ d1.createdAt)) :
    (UserDashboard.fetchUserActivities true docs userId v).activities
      = (docs.filter (fun d => decide (d.userId = some userId))).map (fun d =>
          ({ id := d.id.getD d.docId, userId := d.userId, title := d.title,
             description := d.description, mediaUrl := d.mediaUrl,
             createdAt := d.createdAt } : Activity)) ∧
    (Dashboard.fetchUserActivities true docs userId w).activities
      = (UserDashboard.fetchUserActivities true docs userId v).activities ∧
    (∀ a ∈ (UserDashboard.fetchUserActivities true docs userId v).activities,
      a.userId = some userId ∧
      ∃ d ∈ docs, d.userId = some userId ∧ a.createdAt = d.createdAt ∧
        a.id = d.id.getD d.docId) ∧
    ((UserDashboard.fetchUserActivities true docs userId v).activities.map
        (fun a => a.createdAt)).Sublist (docs.map (fun d => d.createdAt)) ∧
    (UserDashboard.fetchUserActivities true docs userId v).activities.Pairwise
      (fun a1 a2 => a2.createdAt ≤ a1.createdAt) := by
  have e1 : (UserDashboard.fetchUserActivities true docs userId v).activities
      = (docs.filter (fun d => decide (d.userId = some userId))).map (fun d =>
          ({ id := d.id.getD d.docId, userId := d.userId, title := d.title,
             description := d.description, mediaUrl := d.mediaUrl,
             createdAt := d.createdAt } : Activity)) := by
    simp only [UserDashboard.fetchUserActivities, UserDashboard.fetchUserActivitiesTry, getDocs,
      if_true, userActivities_eq]
    rfl
  have e2 : (Dashboard.fetchUserActivities true docs userId w).activities
      = (UserDashboard.fetchUserActivities true docs userId v).activities := by
    rw [e1]
    simp only [Dashboard.fetchUserActivities, Dashboard.fetchUserActivitiesTry, getDocs,
      if_true, userActivities_eq]
    rfl
  refine ⟨e1, e2, ?_, ?_, ?_⟩
  · intro a ha
    rw [e1] at ha
    obtain ⟨d, hd, rfl⟩ := List.mem_map.1 ha
    obtain ⟨hmem, hp⟩ := List.mem_filter.1 hd
    have hu : d.userId = some userId := by simpa using hp
    exact ⟨hu, d, hmem, hu, rfl, rfl⟩
  · rw [e1, List.map_map]
    exact (List.filter_sublist docs).map (fun d => d.createdAt)
  · rw [e1, List.pairwise_map]
    exact hsorted.sublist (List.filter_sublist _)

/-- C9 on a concrete ordered snapshot of four activities, two of them owned by
`a`: both pages show exactly those two, newest first, with the ids and
creation times of their documents. -/
theorem fetchUserActivities_spec_witness :
    demoTheories.Pairwise (fun d1 d2 => d2.createdAt ≤ d1.createdAt) ∧
    (UserDashboard.fetchUserActivities true demoTheories "a" {}).activities
      = [ { id := "t4", userId := some "a", title := some "four", description := none,
            mediaUrl := none, createdAt := 40 },
          { id := "t2", userId := some "a", title := some "two", description := none,
            mediaUrl := none, createdAt := 20 } ] ∧
    (Dashboard.fetchUserActivities true demoTheories "a" {}).activities
      = [ { id := "t4", userId := some "a", title := some "four", description := none,
            mediaUrl := none, createdAt := 40 },
          { id := "t2", userId := some "a", title := some "two", description := none,
            mediaUrl := none, createdAt := 20 } ] ∧
    (UserDashboard.fetchUserActivities true demoTheories "a" {}).activities.Pairwise
      (fun a1 a2 => a2.createdAt ≤ a1.createdAt) := by
  have h := fetchUserActivities_spec demoTheories "a" {} {} (by decide)
  have hk : (UserDashboard.fetchUserActivities true demoTheories "a" {}).activities
      = [ { id := "t4", userId := some "a", title := some "four", description := none,
            mediaUrl := none, createdAt := 40 },
          { id := "t2", userId := some "a", title := some "two", description := none,
            mediaUrl := none, createdAt := 20 } ] := h.1.trans (by decide)
  exact ⟨by decide, hk, h.2.1.trans hk, h.2.2.2.2⟩

/-! ## Display-name resolution -/

/-- When every lookup is served, the batch resolves every id, in order. -/
theorem resolveNames_ok (readUp : Uid → Bool) (s : Store) (ids : List Uid)
    (hup : ∀ id ∈ ids, readUp id = true) :
    resolveNames readUp s ids
      = .ok (ids.map (fun id =>
          { id := id, displayName := orString ((s id).bind (fun d => d.displayName)) "Unknown" })) := by
  induction ids with
  | nil => rfl
  | cons id rest ih =>
    have h1 : readUp id = true := hup id (List.mem_cons_self _ _)
    have h2 : ∀ x ∈ rest, readUp x = true := fun x hx => hup x (List.mem_cons_of_mem _ hx)
    simp [resolveNames, resolveName, getDoc, h1, ih h2]

/-- C10 as stated fails: a requester whose document exists but has no display
name, or an empty one, is shown as `Unknown`, not under the display name of
its document. -/
theorem resolution_unknown_for_existing_docs :
    (Dashboard.fetchFriendRequests true (fun _ => true) namesStore "a" {}).friendRequests
      = [⟨"b", "Unknown"⟩, ⟨"c", "Unknown"⟩, ⟨"d", "Dee"⟩, ⟨"e", "Unknown"⟩] ∧
    (namesStore "b").bind (fun d => d.displayName) = none ∧
    (namesStore "c").bind (fun d => d.displayName) = some "" := by
  decide

/-- C10 (amended): for every list of uids in the caller's `friendRequests` (or
`friends`) field and every store in which all reads succeed, the resolved list
has the same length and order, its i-th entry has the i-th uid as `id`, and its
`displayName` is the display name of that user's document when the document
exists and the name is present and non-empty, and the literal `Unknown`
otherwise; a missing document never fails the batch. -/
theorem resolution_spec (readUp : Uid → Bool) (s : Store) (userId : Uid) (data : UserDoc)
    (v : Dashboard.View) (hdoc : s userId = some data)
    (hreq : ∀ id ∈ data.friendRequests.getD [], readUp id = true)
    (hfr : ∀ id ∈ data.friends.getD [], readUp id = true) :
    Dashboard.fetchFriendRequests true readUp s userId v
      = { v with friendRequests := (data.friendRequests.getD []).map (fun id =>
            { id := id
              displayName :=
                match s id with
                | some d =>
                  match d.displayName with
                  | some name => if name = "" then "Unknown" else name
                  | none => "Unknown"
                | none => "Unknown" }) } ∧
    Dashboard.fetchFriends true readUp s userId v
      = { v with friends := (data.friends.getD []).map (fun id =>
            { id := id
              displayName :=
                match s id with
                | some d =>
                  match d.displayName with
                  | some name => if name = "" then "Unknown" else name
                  | none => "Unknown"
                | none => "Unknown" }) } := by
  have hname : ∀ id : Uid,
      orString ((s id).bind (fun d => d.displayName)) "Unknown"
        = (match s id with
          | some d =>
            match d.displayName with
            | some name => if name = "" then "Unknown" else name
            | none => "Unknown"
          | none => "Unknown") := by
    intro id
    cases hs : s id with
    | none => rfl
    | some d =>
      cases hn : d.displayName with
      | none => simp [orString, hn]
      | some name => simp [orString, hn]
  constructor
  · simp only [Dashboard.fetchFriendRequests, Dashboard.fetchFriendRequestsTry, getDoc, if_true,
      hdoc, resolveNames_ok readUp s _ hreq, hname]
  · simp only [Dashboard.fetchFriends, Dashboard.fetchFriendsTry, getDoc, if_true,
      hdoc, resolveNames_ok readUp s _ hfr, hname]

/-- C10 (amended) on a concrete store: the four requests of `a` resolve in
order, the nameless and the missing ones to `Unknown`. -/
theorem resolution_spec_witness :
    (Dashboard.fetchFriendRequests true (fun _ => true) namesStore "a" {}).friendRequests
      = [⟨"b", "Unknown"⟩, ⟨"c", "Unknown"⟩, ⟨"d", "Dee"⟩, ⟨"e", "Unknown"⟩] ∧
    (Dashboard.fetchFriends true (fun _ => true) namesStore "a" {}).friends = [] := by
  have h := resolution_spec (fun _ => true) namesStore "a"
    { uid := some "a", friendRequests := some ["b", "c", "d", "e"] } {}
    (by decide) (fun _ _ => rfl) (fun _ _ => rfl)
  rw [h.1, h.2]
  decide

/-! ## Partial failure of `acceptFriendRequest` -/

/-- The promise of `acceptFriendRequest` always resolves, with the outcome of the call. -/
theorem acceptFriendRequestAsync_eq (up1 up2 : Bool) (currentUser : Option Uid)
    (requestId : Uid) (s : Store) :
    Dashboard.acceptFriendRequestAsync up1 up2 currentUser requestId s
      = .ok (Dashboard.acceptFriendRequest up1 up2 currentUser requestId s) := by
  cases currentUser with
  | none => rfl
  | some me =>
    simp only [Dashboard.acceptFriendRequestAsync, Dashboard.acceptFriendRequest]
    generalize runWrites ([up1, up2].zip (Dashboard.acceptWrites me requestId)) s = r
    rcases r with ⟨s1, _ | e⟩ <;> rfl

/-- The outcome of `acceptFriendRequest` when its first write is applied and its second
is rejected: the store after the first write, and one logged error. -/
theorem acceptFriendRequest_partial {up1 up2 : Bool} {A B : Uid} {s s1 : Store} {w1 w2 : Write}
    {e : String} (hw : Dashboard.acceptWrites A B = [w1, w2])
    (h1 : updateDoc up1 s w1 = .ok s1) (h2 : updateDoc up2 s1 w2 = .error e) :
    (Dashboard.acceptFriendRequest up1 up2 (some A) B s).store = s1 ∧
    (Dashboard.acceptFriendRequest up1 up2 (some A) B s).console
      = ["Error accepting friend request:"] := by
  simp [Dashboard.acceptFriendRequest, hw, runWrites_cons_eq, h1, h2]

/-- C11 as stated fails for `B = A`: when `a` accepts a request it sent to
itself and the second write is rejected, the first write has already changed
the document of `a`, which is also the document of the requester. -/
theorem acceptFriendRequest_self_changes_doc :
    (Dashboard.acceptFriendRequest true false (some "a") "a" selfStore).console
      = ["Error accepting friend request:"] ∧
    "a" ∈ friendsOf (Dashboard.acceptFriendRequest true false (some "a") "a" selfStore).store "a" ∧
    (Dashboard.acceptFriendRequest true false (some "a") "a" selfStore).store "a"
      ≠ selfStore "a" := by
  decide

/-- C11 (amended): `acceptFriendRequest` is not atomic.  When the first write is applied
and the second write (to the document of `B`) is rejected, the call raises no
error to its caller and only logs one; the resulting store is the one after
the first write, with `B` in `A.friends` and `B` not in `A.friendRequests`;
the document of `B` is unchanged when `B` differs from `A`; and a later
`acceptFriendRequest(B)` by `A` whose writes both succeed yields `A` in `B.friends` and
`B` in `A.friends`. -/
theorem acceptFriendRequest_not_atomic (up1 up2 : Bool) (s s1 : Store) (A B : Uid)
    (w1 w2 : Write) (e : String) (hw : Dashboard.acceptWrites A B = [w1, w2])
    (h1 : updateDoc up1 s w1 = .ok s1) (h2 : updateDoc up2 s1 w2 = .error e) :
    Dashboard.acceptFriendRequestAsync up1 up2 (some A) B s
      = .ok { store := s1, console := ["Error accepting friend request:"], refresh := [] } ∧
    B ∈ friendsOf s1 A ∧ B ∉ friendRequestsOf s1 A ∧
    (B ≠ A → s1 B = s B) ∧
    ∀ r1 r2 : Bool, (Dashboard.acceptFriendRequest r1 r2 (some A) B s1).console = [] →
      A ∈ friendsOf (Dashboard.acceptFriendRequest r1 r2 (some A) B s1).store B ∧
      B ∈ friendsOf (Dashboard.acceptFriendRequest r1 r2 (some A) B s1).store A := by
  have hasync : Dashboard.acceptFriendRequestAsync up1 up2 (some A) B s
      = .ok { store := s1, console := ["Error accepting friend request:"], refresh := [] } := by
    simp [Dashboard.acceptFriendRequestAsync, hw, runWrites_cons_eq, h1, h2]
  simp only [Dashboard.acceptWrites, List.cons.injEq, and_true] at hw
  obtain ⟨rfl, rfl⟩ := hw
  obtain ⟨-, dA, hA, rfl⟩ := updateDoc_eq_ok h1
  refine ⟨hasync, ?_, ?_, ?_, ?_⟩
  · rw [friendsOf_put, if_pos rfl]
    simp [UserDoc.update, UserDoc.setField, mem_apply_arrayUnion]
  · rw [friendRequestsOf_put, if_pos rfl]
    simp [UserDoc.update, UserDoc.setField, mem_apply_arrayRemove]
  · intro hne
    simp [Store.put, hne]
  · intro r1 r2 h
    exact ⟨(mem_friendsOf_accept h A B).2 (Or.inr (Or.inr ⟨rfl, rfl⟩)),
      (mem_friendsOf_accept h B A).2 (Or.inr (Or.inl ⟨rfl, rfl⟩))⟩

/-- C11 (amended) at a concrete store: `a` accepts `c`, the write to the
document of `c` is rejected, and a retry completes the friendship. -/
theorem acceptFriendRequest_not_atomic_witness :
    Dashboard.acceptFriendRequestAsync true false (some "a") "c" mutualStore
      = .ok { store := partialStore, console := ["Error accepting friend request:"],
              refresh := [] } ∧
    "c" ∈ friendsOf partialStore "a" ∧ "c" ∉ friendRequestsOf partialStore "a" ∧
    partialStore "c" = mutualStore "c" ∧
    (Dashboard.acceptFriendRequest true true (some "a") "c" partialStore).console = [] ∧
    "a" ∈ friendsOf (Dashboard.acceptFriendRequest true true (some "a") "c" partialStore).store "c" ∧
    "c" ∈ friendsOf
      (Dashboard.acceptFriendRequest true true (some "a") "c" partialStore).store "a" := by
  have h := acceptFriendRequest_not_atomic true false mutualStore partialStore "a" "c" _ _
    "unavailable" rfl rfl rfl
  exact ⟨h.1, h.2.1, h.2.2.1, h.2.2.2.1 (by decide), by decide,
    h.2.2.2.2 true true (by decide)⟩

/-! ## The friends subscription of the contact list -/

/-- C12 fails on the code for a missing document: the callback of the
subscription to the caller's own document reads `userData.friends` on the
`undefined` data of a document that does not exist and raises, instead of
setting the friends to the empty list.  For a document that exists it sets
the friends to the `friends` field, or to the empty list when there is none. -/
theorem onUserSnapshot_missing_doc_raises :
    Chat.onUserSnapshot none
      = .error "TypeError: Cannot read properties of undefined (reading friends)" ∧
    (∀ userData : UserDoc,
      Chat.onUserSnapshot (some userData) = .ok (userData.friends.getD [])) ∧
    Chat.onUserSnapshot (some { uid := some "a" }) = .ok [] :=
  ⟨rfl, fun _ => rfl, rfl⟩

end Ins
